import Mathlib

/-!
Verification of the Enarx Wasm runtime core against its specification.

The definitions below are a shallow embedding of the Rust sources:
  - crates/exec-wasmtime/src/runtime/mod.rs  (attestation host call, runtime setup, exit interpretation)
  - internal/wasmldr/src/loader/compiled/tls.rs  (TLS Stream and Listener)
  - internal/wasmldr/src/wasi/preview_0.rs  (syscall shim overrides)

Guest linear memory is a `List Nat` of bytes (`Option` models presence of the
exported memory named "memory").  Machine `i32` values are `Int` with explicit
reinterpretation `toU32` where the code casts `as u32 as usize`.
-/

/-- Reinterpretation of a signed 32-bit value as an unsigned index, mirroring
the Rust cast chain `as u32 as usize` applied to an `i32`. -/
def toU32 (x : Int) : Nat := (x % (2 ^ 32 : Int)).toNat

namespace wasmhelper

/-- Embedding of `wasmhelper::read` (runtime/mod.rs lines 39-49): if an exported
memory is present, return the `len as u32` bytes starting at `ptr as u32`, or
`none` when the range is out of bounds (`get(ptr..)` then `get(..len)`). -/
def read (mem : Option (List Nat)) (ptr len : Int) : Option (List Nat) :=
  match mem with
  | none => none
  | some m =>
    if toU32 ptr + toU32 len ≤ m.length then
      some ((m.drop (toU32 ptr)).take (toU32 len))
    else
      none

/-- Embedding of `wasmhelper::write` (runtime/mod.rs lines 51-63): writes
`min(data.len, len as u32)` bytes of `data` at `ptr as u32` when that range is
in bounds, otherwise leaves memory unchanged; absent memory is unchanged. -/
def write (mem : Option (List Nat)) (ptr len : Int) (data : List Nat) : Option (List Nat) :=
  match mem with
  | none => none
  | some m =>
    let p := toU32 ptr
    let k := min data.length (toU32 len)
    if p + k ≤ m.length then
      some (m.take p ++ data.take k ++ m.drop (p + k))
    else
      some m

end wasmhelper

/-- Embedding of the `host::attestation_report` closure (runtime/mod.rs lines
96-118).  `attest` models `Platform::get()` (`none` when it fails) composed
with `platform.attest` (which may itself fail); `mem` is the guest memory
state; the result is the guest memory state after the call. -/
def attestation_report (attest : Option (List Nat → Option (List Nat)))
    (mem : Option (List Nat)) (ptr len out_ptr out_len : Int) : Option (List Nat) :=
  if (64 : Int) < len then mem
  else
    match attest with
    | none => mem
    | some attestFn =>
      match wasmhelper.read mem ptr len with
      | none => mem
      | some nonce =>
        match attestFn nonce with
        | none => mem
        | some report => wasmhelper.write mem out_ptr out_len report

/-- C1: with `0 ≤ nonce_len ≤ 64`, if the guest exports a memory, the nonce
read is in bounds and the attestor succeeds with report `r`, then exactly
`min(|r|, out_len)` bytes of `r` are written at `out_ptr` (memory length
preserved); on any failure — no memory, failed nonce read, attestor error, or
out-of-bounds output range — the call returns with guest memory unchanged. -/
theorem attestation_report_spec (attest : Option (List Nat → Option (List Nat)))
    (mem : Option (List Nat)) (ptr len out_ptr out_len : Int)
    (h0 : 0 ≤ len) (h64 : len ≤ 64) :
    (∀ m attestFn nonce report,
        mem = some m →
        attest = some attestFn →
        wasmhelper.read mem ptr len = some nonce →
        attestFn nonce = some report →
        (toU32 out_ptr + min report.length (toU32 out_len) ≤ m.length →
          attestation_report attest mem ptr len out_ptr out_len =
            some (m.take (toU32 out_ptr) ++
                  report.take (min report.length (toU32 out_len)) ++
                  m.drop (toU32 out_ptr + min report.length (toU32 out_len))) ∧
          (m.take (toU32 out_ptr) ++
                  report.take (min report.length (toU32 out_len)) ++
                  m.drop (toU32 out_ptr + min report.length (toU32 out_len))).length
            = m.length) ∧
        (m.length < toU32 out_ptr + min report.length (toU32 out_len) →
          attestation_report attest mem ptr len out_ptr out_len = some m))
    ∧ (mem = none → attestation_report attest mem ptr len out_ptr out_len = none)
    ∧ (attest = none → attestation_report attest mem ptr len out_ptr out_len = mem)
    ∧ (attest.isSome = true → wasmhelper.read mem ptr len = none →
        attestation_report attest mem ptr len out_ptr out_len = mem)
    ∧ (∀ m attestFn nonce, mem = some m → attest = some attestFn →
        wasmhelper.read mem ptr len = some nonce → attestFn nonce = none →
        attestation_report attest mem ptr len out_ptr out_len = mem) := by
  have hlt : ¬ (64 : Int) < len := by omega
  refine ⟨?_, ?_, ?_, ?_, ?_⟩
  · intro m attestFn nonce report hm ha hr hrep
    subst hm; subst ha
    constructor
    · intro hb
      have hwrite : attestation_report (some attestFn) (some m) ptr len out_ptr out_len =
          wasmhelper.write (some m) out_ptr out_len report := by
        simp only [attestation_report, if_neg hlt, hr, hrep]
      constructor
      · rw [hwrite]
        simp only [wasmhelper.write, if_pos hb]
      · have hk : min report.length (toU32 out_len) ≤ report.length := min_le_left _ _
        simp only [List.length_append, List.length_take, List.length_drop]
        omega
    · intro hb
      have hwrite : attestation_report (some attestFn) (some m) ptr len out_ptr out_len =
          wasmhelper.write (some m) out_ptr out_len report := by
        simp only [attestation_report, if_neg hlt, hr, hrep]
      rw [hwrite]
      simp only [wasmhelper.write]
      rw [if_neg (by omega)]
  · intro hm
    subst hm
    cases attest with
    | none => simp [attestation_report, if_neg hlt]
    | some f => simp [attestation_report, if_neg hlt, wasmhelper.read]
  · intro ha
    subst ha
    simp [attestation_report, if_neg hlt]
  · intro hs hr
    cases attest with
    | none => simp [attestation_report, if_neg hlt]
    | some f => simp only [attestation_report, if_neg hlt, hr]
  · intro m attestFn nonce hm ha hr hrep
    subst hm; subst ha
    simp only [attestation_report, if_neg hlt, hr, hrep]

/-- Witness for C1: a concrete successful invocation writing
`min(3, 2) = 2` report bytes at offset 1 into a 6-byte memory. -/
theorem attestation_report_spec_witness :
    attestation_report (some (fun _ => some [9, 9, 9])) (some [0, 1, 2, 3, 4, 5]) 0 2 1 2 =
      some [0, 9, 9, 3, 4, 5] := by
  have h := (attestation_report_spec (some (fun _ => some [9, 9, 9]))
      (some [0, 1, 2, 3, 4, 5]) 0 2 1 2 (by decide) (by decide)).1
      [0, 1, 2, 3, 4, 5] (fun _ => some [9, 9, 9]) [0, 1] [9, 9, 9]
      rfl rfl (by decide) rfl
  have h2 := (h.1 (by decide)).1
  rw [h2]
  decide

/-- C2: a call with `nonce_len > 64` (signed comparison) returns immediately
and leaves the guest memory entirely unchanged. -/
theorem attestation_report_oversize_nonce_noop
    (attest : Option (List Nat → Option (List Nat)))
    (mem : Option (List Nat)) (ptr len out_ptr out_len : Int)
    (h : (64 : Int) < len) :
    attestation_report attest mem ptr len out_ptr out_len = mem := by
  simp [attestation_report, if_pos h]

/-- Witness for C2: `nonce_len = 65` on a concrete memory is a no-op. -/
theorem attestation_report_oversize_nonce_noop_witness :
    attestation_report none (some [1, 2, 3]) 0 65 0 4 = some [1, 2, 3] :=
  attestation_report_oversize_nonce_noop none (some [1, 2, 3]) 0 65 0 4 (by decide)

/-- C10: a negative `nonce_len` passes the signed `> 64` check, but is
reinterpreted as a large unsigned length for the nonce read; whenever that
unsigned length exceeds the guest memory size, the read fails its bounds check
and the call returns silently with guest memory unchanged. -/
theorem attestation_report_negative_nonce_len
    (attest : Option (List Nat → Option (List Nat)))
    (m : List Nat) (ptr out_ptr out_len len : Int)
    (hneg : len < 0) (hlow : -(2 ^ 31) ≤ len)
    (hsize : m.length < toU32 len) :
    ¬ (64 : Int) < len ∧
    wasmhelper.read (some m) ptr len = none ∧
    attestation_report attest (some m) ptr len out_ptr out_len = some m := by
  have hlt : ¬ (64 : Int) < len := by omega
  have hread : wasmhelper.read (some m) ptr len = none := by
    simp only [wasmhelper.read]
    rw [if_neg (by omega)]
  refine ⟨hlt, hread, ?_⟩
  cases attest with
  | none => simp [attestation_report, if_neg hlt]
  | some f => simp only [attestation_report, if_neg hlt, hread]

/-- Witness for C10: `nonce_len = -1` reinterprets to `2^32 - 1`, which
exceeds an empty guest memory, so the call is a silent no-op. -/
theorem attestation_report_negative_nonce_len_witness :
    wasmhelper.read (some ([] : List Nat)) 0 (-1) = none ∧
    attestation_report none (some ([] : List Nat)) 0 (-1) 0 0 = some [] := by
  have h := attestation_report_negative_nonce_len none ([] : List Nat) 0 0 0 (-1)
      (by decide) (by decide) (by decide)
  exact ⟨h.2.1, h.2.2⟩

/-- Wasm values held in the result vector (`wasmtime::Val`); `null` is
`Val::null()`, the fill value of the freshly allocated vector. -/
inductive Val
| null
| i32 (x : Int)
| i64 (x : Int)
deriving DecidableEq

/-- Result of `e.downcast_ref::<Trap>().map(Trap::i32_exit_status)` on the
error returned by `func.call`: `none` when the error is not a `Trap`,
`some none` for a trap without an exit status, `some (some c)` for an
exit-status trap. -/
structure WasmError where
  downcast : Option (Option Int)
deriving DecidableEq

/-- Fatal error produced by `bail!(e.context(..))`: the context message plus
the original cause. -/
inductive ExecErr
| fatal (msg : String) (cause : WasmError)
deriving DecidableEq

/-- Embedding of the result-vector allocation of `Runtime::execute`
(runtime/mod.rs line 167): `vec![Val::null(); results_arity]`. -/
def initialResults (arity : Nat) : List Val := List.replicate arity Val.null

/-- Embedding of the exit interpretation of `Runtime::execute` (runtime/mod.rs
lines 168-174): `values` is the result vector after `func.call`, `callErr` is
`none` on normal return and `some e` when the call returned `Err(e)`. -/
def interpretExit (values : List Val) (callErr : Option WasmError) : Except ExecErr (List Val) :=
  match callErr with
  | none => .ok values
  | some e =>
    match e.downcast with
    | some (some 0) => .ok values
    | _ => .error (.fatal "failed to execute default function" e)

/-- C3: the result vector is sized to the entry's declared result arity; a
normal return yields the result vector, a trap whose downcast reveals exit
status `0` also yields the result vector, and any other trap or exit status
yields a fatal error preserving the cause. -/
theorem interpretExit_spec (arity : Nat) (values : List Val) (e : WasmError) :
    (initialResults arity).length = arity
    ∧ interpretExit values none = .ok values
    ∧ (e.downcast = some (some 0) → interpretExit values (some e) = .ok values)
    ∧ (e.downcast ≠ some (some 0) →
        interpretExit values (some e) =
          .error (.fatal "failed to execute default function" e)) := by
  refine ⟨List.length_replicate _ _, rfl, ?_, ?_⟩
  · intro h
    simp [interpretExit, h]
  · intro h
    obtain ⟨d⟩ := e
    rcases d with _ | d2
    · rfl
    rcases d2 with _ | c
    · rfl
    rcases c with n | n
    · rcases n with _ | n
      · exact absurd rfl h
      · rfl
    · rfl

/-- Witness for C3: a trap with exit status 1 is rejected as fatal with the
cause preserved, and exit status 0 is accepted. -/
theorem interpretExit_spec_witness :
    interpretExit [] (some ⟨some (some 1)⟩) =
      .error (.fatal "failed to execute default function" ⟨some (some 1)⟩) ∧
    interpretExit [Val.i32 7] (some ⟨some (some 0)⟩) = .ok [Val.i32 7] :=
  ⟨(interpretExit_spec 0 [] ⟨some (some 1)⟩).2.2.2 (by decide),
   (interpretExit_spec 0 [Val.i32 7] ⟨some (some 0)⟩).2.2.1 rfl⟩

/-- Transport protocol of a network slot (`prot ∈ {plain, tls}`). -/
inductive Prot
| plain
| tls
deriving DecidableEq

/-- Configuration payload of a `Listen` slot. -/
structure ListenFile where
  name : String
  addr : String
  port : Nat
  prot : Prot
deriving DecidableEq

/-- Configuration payload of a `Connect` slot. -/
structure ConnectFile where
  name : String
  host : String
  port : Nat
  prot : Prot
deriving DecidableEq

/-- Modelled from the spec: the `Slot` type of the configuration (the
`enarx-config` crate is not under src/): tagged variant
`Null | Stdin | Stdout | Stderr | Listen | Connect`, every slot carrying a
name used for the `FD_NAMES` binding. -/
inductive File
| null (name : String)
| stdin (name : String)
| stdout (name : String)
| stderr (name : String)
| listen (f : ListenFile)
| connect (f : ConnectFile)
deriving DecidableEq

/-- Name of a slot, as used for `FD_NAMES`. -/
def File.name : File → String
  | .null n => n
  | .stdin n => n
  | .stdout n => n
  | .stderr n => n
  | .listen f => f.name
  | .connect f => f.name

/-- Host standard streams handed to `stdio_file`. -/
inductive StdStream
| stdin
| stdout
| stderr
deriving DecidableEq

/-- Host-side I/O object held in the descriptor table.  `nullFile` is
`io::null::Null`; `stdioFile` and `netFile` stand for the opaque objects
produced by `stdio_file`, `listen_file` and `connect_file`; `pipeDefault` is
the default pipe (an empty `ReadPipe` for stdin, a sink `WritePipe` for
stdout/stderr) that wasi-common pre-installs for the corresponding standard
stream when the context is built. -/
inductive WasiFileObj
| nullFile
| stdioFile (s : StdStream)
| netFile (tag : Nat)
| pipeDefault (s : StdStream)
deriving DecidableEq

/-- Capability set attached to a descriptor-table entry; `all` is
`FileCaps::all()`, `subset` any other bitmask. -/
inductive FileCaps
| all
| subset (bits : Nat)
deriving DecidableEq

/-- Setup-phase error with `context` annotations, mirroring `anyhow`. -/
inductive SetupErr
| msg (m : String)
| ctx (m : String) (cause : SetupErr)
deriving DecidableEq

/-- Embedding of the per-slot entry construction of `Runtime::execute`
(runtime/mod.rs lines 134-143).  `stdioF`, `listenF` and `connectF` are the
helper constructors `stdio_file`, `listen_file` and `connect_file` (defined in
io.rs/net.rs, outside src/), passed as parameters; the `Null` arm is concrete:
`(Box::new(Null), FileCaps::all())`. -/
def mkEntry (stdioF : StdStream → WasiFileObj × FileCaps)
    (listenF : ListenFile → Except SetupErr (WasiFileObj × FileCaps))
    (connectF : ConnectFile → Except SetupErr (WasiFileObj × FileCaps)) :
    File → Except SetupErr (WasiFileObj × FileCaps)
  | .null _ => .ok (.nullFile, .all)
  | .stdin _ => .ok (stdioF .stdin)
  | .stdout _ => .ok (stdioF .stdout)
  | .stderr _ => .ok (stdioF .stderr)
  | .listen f =>
    match listenF f with
    | .error e => .error (.ctx "failed to setup listening socket" e)
    | .ok entry => .ok entry
  | .connect f =>
    match connectF f with
    | .error e => .error (.ctx "failed to setup connection stream" e)
    | .ok entry => .ok entry

/-- Embedding of the descriptor-provisioning loop of `Runtime::execute`
(runtime/mod.rs lines 131-146), started at index `fd`: pushes each slot name,
constructs its entry, checks that the index fits a guest FD
(`fd.try_into()`, a `usize → u32` conversion failing with context
"too many open files"), and inserts `(fd, entry)` into the table. -/
def provisionFrom (stdioF : StdStream → WasiFileObj × FileCaps)
    (listenF : ListenFile → Except SetupErr (WasiFileObj × FileCaps))
    (connectF : ConnectFile → Except SetupErr (WasiFileObj × FileCaps))
    (fd : Nat) :
    List File → Except SetupErr (List String × List (Nat × WasiFileObj × FileCaps))
  | [] => .ok ([], [])
  | f :: rest =>
    match mkEntry stdioF listenF connectF f with
    | .error e => .error e
    | .ok entry =>
      if fd < 2 ^ 32 then
        match provisionFrom stdioF listenF connectF (fd + 1) rest with
        | .error e => .error e
        | .ok (names, tbl) => .ok (f.name :: names, (fd, entry) :: tbl)
      else
        .error (.msg "too many open files")

/-- Guest-visible sandbox context: descriptor table, environment and argument
vectors (the parts of `WasiCtx` that the setup code mutates). -/
structure WasiCtx where
  fdTable : List (Nat × WasiFileObj × FileCaps)
  env : List (String × String)
  args : List String
deriving DecidableEq

/-- Embedding of `WasiCtx::push_env`: appends one environment binding (the
delegate's string-validity checks do not affect ordering and are elided). -/
def WasiCtx.push_env (ctx : WasiCtx) (k v : String) : WasiCtx :=
  { ctx with env := ctx.env ++ [(k, v)] }

/-- Embedding of `WasiCtx::push_arg`: appends one argument. -/
def WasiCtx.push_arg (ctx : WasiCtx) (a : String) : WasiCtx :=
  { ctx with args := ctx.args ++ [a] }

/-- Pairs the elements of a list with consecutive integer keys starting at
`start` (used to model fd-keyed tables whose keys are dense from `start`). -/
def indexed {α : Type} (start : Nat) : List α → List (Nat × α)
  | [] => []
  | e :: es => (start, e) :: indexed (start + 1) es

/-- Embedding of `WasiCtx::insert_file` (wasi-common), i.e.
`Table::insert_at(fd, ..)`: stores `e` under key `fd`, replacing any existing
entry with that key (the association list models the fd-keyed map). -/
def insertFile {α : Type} (tbl : List (Nat × α)) (fd : Nat) (e : α) : List (Nat × α) :=
  match tbl with
  | [] => [(fd, e)]
  | (k, v) :: rest =>
    if k = fd then (fd, e) :: rest
    else (k, v) :: insertFile rest fd e

/-- Default entries pre-populated by `WasiCtxBuilder::new().build()`
(runtime/mod.rs line 120): wasi-common's `WasiCtx::new` installs an empty read
pipe as stdin and sink write pipes as stdout and stderr, via `set_stdin`,
`set_stdout` and `set_stderr`, each inserting with `FileCaps::all()`. -/
def defaultStdioEntries : List (WasiFileObj × FileCaps) :=
  [(.pipeDefault .stdin, .all), (.pipeDefault .stdout, .all),
   (.pipeDefault .stderr, .all)]

/-- The pre-populated descriptor table of the freshly built context: the three
default stdio entries at fds 0, 1 and 2. -/
def defaultStdio : List (Nat × WasiFileObj × FileCaps) :=
  indexed 0 defaultStdioEntries

/-- The descriptor table at guest entry: each provisioned `(fd, entry)` pair
inserted in slot order (`ctx.insert_file(fd, file, caps)`) into the
pre-populated default table. -/
def guestTable (tbl : List (Nat × WasiFileObj × FileCaps)) :
    List (Nat × WasiFileObj × FileCaps) :=
  tbl.foldl (fun t p => insertFile t p.1 p.2) defaultStdio

/-- Embedding of the setup phase of `Runtime::execute` (runtime/mod.rs lines
120-161): the store's context is `WasiCtxBuilder::new().build()`, whose
descriptor table is pre-populated with the default stdio entries at fds 0-2;
then provision the descriptor table (each entry inserted at its slot index,
overwriting a default), push `FD_COUNT` and `FD_NAMES`, then the user
environment in config order, then `argv[0] = "main.wasm"` and the user
arguments in config order. -/
def runtimeSetup (stdioF : StdStream → WasiFileObj × FileCaps)
    (listenF : ListenFile → Except SetupErr (WasiFileObj × FileCaps))
    (connectF : ConnectFile → Except SetupErr (WasiFileObj × FileCaps))
    (files : List File) (env : List (String × String)) (args : List String) :
    Except SetupErr WasiCtx :=
  match provisionFrom stdioF listenF connectF 0 files with
  | .error e => .error e
  | .ok (names, tbl) =>
    let ctx : WasiCtx := { fdTable := guestTable tbl, env := [], args := [] }
    let ctx := ctx.push_env "FD_COUNT" (toString names.length)
    let ctx := ctx.push_env "FD_NAMES" (String.intercalate ":" names)
    let ctx := env.foldl (fun c kv => c.push_env kv.1 kv.2) ctx
    let ctx := ctx.push_arg "main.wasm"
    let ctx := args.foldl (fun c a => c.push_arg a) ctx
    .ok ctx

theorem foldl_push_env (env : List (String × String)) (ctx : WasiCtx) :
    env.foldl (fun c kv => c.push_env kv.1 kv.2) ctx =
      { ctx with env := ctx.env ++ env } := by
  induction env generalizing ctx with
  | nil => simp
  | cons kv rest ih =>
    obtain ⟨k, v⟩ := kv
    rw [List.foldl_cons, ih]
    simp [WasiCtx.push_env, List.append_assoc]

theorem foldl_push_arg (args : List String) (ctx : WasiCtx) :
    args.foldl (fun c a => c.push_arg a) ctx =
      { ctx with args := ctx.args ++ args } := by
  induction args generalizing ctx with
  | nil => simp
  | cons a rest ih =>
    rw [List.foldl_cons, ih]
    simp [WasiCtx.push_arg, List.append_assoc]

theorem indexed_length {α : Type} (start : Nat) (l : List α) :
    (indexed start l).length = l.length := by
  induction l generalizing start with
  | nil => rfl
  | cons e es ih => simp [indexed, ih]

theorem indexed_getElem? {α : Type} (start : Nat) (l : List α) (i : Nat) :
    (indexed start l)[i]? = (l[i]?).map (fun e => (start + i, e)) := by
  induction l generalizing start i with
  | nil => simp [indexed]
  | cons e es ih =>
    cases i with
    | zero => simp [indexed]
    | succ j =>
      simp only [indexed, List.getElem?_cons_succ, ih]
      rw [show start + 1 + j = start + (j + 1) by omega]

theorem indexed_key_ge {α : Type} (start : Nat) (l : List α) :
    ∀ p ∈ indexed start l, start ≤ p.1 := by
  induction l generalizing start with
  | nil => intro p hp; simp [indexed] at hp
  | cons e es ih =>
    intro p hp
    simp only [indexed, List.mem_cons] at hp
    cases hp with
    | inl h => subst h; exact Nat.le_refl _
    | inr h => exact Nat.le_of_succ_le (ih (start + 1) p h)

theorem foldl_insertFile_cons {α : Type} (ps : List (Nat × α)) (k : Nat) (e : α)
    (t : List (Nat × α)) (hk : ∀ p ∈ ps, k < p.1) :
    List.foldl (fun t p => insertFile t p.1 p.2) ((k, e) :: t) ps =
      (k, e) :: List.foldl (fun t p => insertFile t p.1 p.2) t ps := by
  induction ps generalizing t with
  | nil => rfl
  | cons p ps ih =>
    simp only [List.foldl_cons]
    have hkp : k < p.1 := hk p (List.mem_cons_self p ps)
    rw [show insertFile ((k, e) :: t) p.1 p.2 = (k, e) :: insertFile t p.1 p.2 from by
      simp [insertFile, Nat.ne_of_lt hkp]]
    exact ih _ (fun q hq => hk q (List.mem_cons_of_mem p hq))

theorem foldl_insertFile_indexed {α : Type} (es ds : List α) (start : Nat) :
    List.foldl (fun t p => insertFile t p.1 p.2) (indexed start ds) (indexed start es) =
      indexed start (es ++ ds.drop es.length) := by
  induction es generalizing ds start with
  | nil => simp [indexed]
  | cons e es ih =>
    have hkeys : ∀ p ∈ indexed (start + 1) es, start < p.1 :=
      fun p hp =>
        Nat.lt_of_lt_of_le (Nat.lt_succ_self start) (indexed_key_ge (start + 1) es p hp)
    cases ds with
    | nil =>
      simp only [indexed, List.foldl_cons]
      rw [show insertFile ([] : List (Nat × α)) start e =
            (start, e) :: indexed (start + 1) ([] : List α) from rfl]
      rw [foldl_insertFile_cons _ start e _ hkeys]
      rw [ih [] (start + 1)]
      simp [indexed]
    | cons d ds =>
      simp only [indexed, List.foldl_cons]
      rw [show insertFile ((start, d) :: indexed (start + 1) ds) start e =
            (start, e) :: indexed (start + 1) ds from by simp [insertFile]]
      rw [foldl_insertFile_cons _ start e _ hkeys]
      rw [ih ds (start + 1)]
      simp only [List.length_cons, List.drop_succ_cons]
      rfl

theorem provisionFrom_ok (stdioF : StdStream → WasiFileObj × FileCaps)
    (listenF : ListenFile → Except SetupErr (WasiFileObj × FileCaps))
    (connectF : ConnectFile → Except SetupErr (WasiFileObj × FileCaps))
    (fd : Nat) (files : List File) (names : List String)
    (tbl : List (Nat × WasiFileObj × FileCaps))
    (h : provisionFrom stdioF listenF connectF fd files = .ok (names, tbl)) :
    names = files.map File.name
    ∧ tbl.length = files.length
    ∧ (∀ i, (hi : i < files.length) → ∃ ht : i < tbl.length,
        (tbl.get ⟨i, ht⟩).1 = fd + i
        ∧ mkEntry stdioF listenF connectF (files.get ⟨i, hi⟩) =
            .ok (tbl.get ⟨i, ht⟩).2)
    ∧ tbl = indexed fd (tbl.map Prod.snd) := by
  induction files generalizing fd names tbl with
  | nil =>
    simp only [provisionFrom] at h
    cases h
    refine ⟨rfl, rfl, ?_, rfl⟩
    intro i hi
    exact absurd hi (by simp)
  | cons f rest ih =>
    cases hme : mkEntry stdioF listenF connectF f with
    | error e =>
      simp only [provisionFrom, hme] at h
      cases h
    | ok entry =>
      by_cases hfd : fd < 2 ^ 32
      · cases hrec : provisionFrom stdioF listenF connectF (fd + 1) rest with
        | error e =>
          simp only [provisionFrom, hme, if_pos hfd, hrec] at h
          cases h
        | ok p =>
          obtain ⟨names2, tbl2⟩ := p
          simp only [provisionFrom, hme, if_pos hfd, hrec, Except.ok.injEq,
            Prod.mk.injEq] at h
          obtain ⟨h1, h2⟩ := h
          obtain ⟨hn, ht, hidx, hind⟩ := ih (fd + 1) names2 tbl2 hrec
          subst h1; subst h2
          refine ⟨by simp [hn], by simp [ht], ?_, ?_⟩
          · intro i hi
            cases i with
            | zero =>
              refine ⟨by simp, by simp, ?_⟩
              simpa using hme
            | succ j =>
              have hj : j < rest.length := by simpa using hi
              obtain ⟨hjt, hfst, hent⟩ := hidx j hj
              refine ⟨by simpa using hjt, ?_, ?_⟩
              · simpa [Nat.add_assoc, Nat.add_comm 1 j] using hfst
              · simpa using hent
          · simp only [List.map_cons, indexed, List.cons.injEq]
            exact ⟨trivial, hind⟩
      · simp only [provisionFrom, hme, if_neg hfd] at h
        cases h

/-- C5 (amended): the freshly built context pre-populates fds 0-2 with default
stdio entries, so at guest entry the descriptor table has exactly
`max(3, len(files))` entries; the entry at index `i < len(files)` carries
guest FD `i` and is the entry the per-slot constructor yields for `files[i]`
(overwriting the default), a `Null` slot's entry carries the full capability
set, the defaults remain at any fd in 0-2 not covered by `files`, the table
reaches guest entry unchanged, and a slot index not representable as a guest
FD (`≥ 2^32`) is a fatal error before guest entry. -/
theorem provision_table_spec (stdioF : StdStream → WasiFileObj × FileCaps)
    (listenF : ListenFile → Except SetupErr (WasiFileObj × FileCaps))
    (connectF : ConnectFile → Except SetupErr (WasiFileObj × FileCaps))
    (files : List File) (names : List String)
    (tbl : List (Nat × WasiFileObj × FileCaps))
    (h : provisionFrom stdioF listenF connectF 0 files = .ok (names, tbl)) :
    (guestTable tbl).length = max 3 files.length
    ∧ (∀ i, (hi : i < files.length) → ∃ e,
        (guestTable tbl)[i]? = some (i, e)
        ∧ mkEntry stdioF listenF connectF (files.get ⟨i, hi⟩) = .ok e
        ∧ ∀ n, files.get ⟨i, hi⟩ = .null n → e.2 = .all)
    ∧ (∀ i, files.length ≤ i → i < 3 →
        (guestTable tbl)[i]? = defaultStdio[i]?)
    ∧ (∀ env args ctx, runtimeSetup stdioF listenF connectF files env args = .ok ctx →
        ctx.fdTable = guestTable tbl)
    ∧ (∀ fd f rest entry, 2 ^ 32 ≤ fd →
        mkEntry stdioF listenF connectF f = .ok entry →
        provisionFrom stdioF listenF connectF fd (f :: rest) =
          .error (.msg "too many open files")) := by
  obtain ⟨hn, ht, hidx, hind⟩ := provisionFrom_ok stdioF listenF connectF 0 files names tbl h
  have hgt : guestTable tbl =
      indexed 0 (tbl.map Prod.snd ++ defaultStdioEntries.drop tbl.length) := by
    have hfold := foldl_insertFile_indexed (tbl.map Prod.snd) defaultStdioEntries 0
    rw [← hind, List.length_map] at hfold
    exact hfold
  have hdse : defaultStdioEntries.length = 3 := rfl
  refine ⟨?_, ?_, ?_, ?_, ?_⟩
  · rw [hgt, indexed_length, List.length_append, List.length_map, List.length_drop,
      ht, hdse]
    omega
  · intro i hi
    have hit : i < tbl.length := by omega
    obtain ⟨hit2, hfst, hent⟩ := hidx i hi
    refine ⟨(tbl.get ⟨i, hit⟩).2, ?_, hent, ?_⟩
    · rw [hgt, indexed_getElem?, List.getElem?_append,
        if_pos (by simpa using hit), List.getElem?_map,
        List.getElem?_eq_getElem hit]
      simp [List.get_eq_getElem]
    · intro n hnull
      rw [hnull] at hent
      simp only [mkEntry] at hent
      have he : (WasiFileObj.nullFile, FileCaps.all) = (tbl.get ⟨i, hit⟩).2 :=
        Except.ok.inj hent
      rw [← he]
  · intro i hfl hi3
    have hge : tbl.length ≤ i := by omega
    rw [hgt, indexed_getElem?,
      List.getElem?_append_right (by simpa using hge),
      List.length_map, List.getElem?_drop,
      show tbl.length + (i - tbl.length) = i from by omega,
      show defaultStdio = indexed 0 defaultStdioEntries from rfl,
      indexed_getElem?]
  · intro env args ctx hctx
    simp only [runtimeSetup, h, Except.ok.injEq] at hctx
    subst hctx
    rw [foldl_push_arg, foldl_push_env]
    simp [WasiCtx.push_env, WasiCtx.push_arg]
  · intro fd f rest entry hfd hent
    simp only [provisionFrom, hent]
    rw [if_neg (by omega)]

/-- Witness for C5: a one-slot `Null` config reaches guest entry with a
three-entry table (`max 3 1`), and starting index `2^32` is rejected as
"too many open files". -/
theorem provision_table_spec_witness :
    (guestTable [(0, WasiFileObj.nullFile, FileCaps.all)]).length =
      max 3 [File.null "n"].length
    ∧ provisionFrom (fun s => (.stdioFile s, .subset 0))
        (fun _ => .ok (.netFile 0, .subset 0)) (fun _ => .ok (.netFile 1, .subset 0))
        (2 ^ 32) [File.null "n"] = .error (.msg "too many open files") := by
  have h := provision_table_spec (fun s => (.stdioFile s, .subset 0))
      (fun _ => .ok (.netFile 0, .subset 0)) (fun _ => .ok (.netFile 1, .subset 0))
      [File.null "n"] ["n"] [(0, .nullFile, .all)] rfl
  exact ⟨h.1, h.2.2.2.2 (2 ^ 32) (File.null "n") [] (.nullFile, .all) (Nat.le_refl _) rfl⟩

/-- Counterexample to C5 as stated: with an empty files list the guest-entry
descriptor table still holds the three pre-populated default stdio entries,
so its length is `3`, not `len(files) = 0`. -/
theorem guest_table_not_len_files_counterexample :
    (runtimeSetup (fun s => (.stdioFile s, .subset 0))
        (fun _ => .ok (.netFile 0, .subset 0)) (fun _ => .ok (.netFile 1, .subset 0))
        [] [] []).map (fun c => c.fdTable.length) = .ok 3
    ∧ ¬ (runtimeSetup (fun s => (.stdioFile s, .subset 0))
        (fun _ => .ok (.netFile 0, .subset 0)) (fun _ => .ok (.netFile 1, .subset 0))
        [] [] []).map (fun c => c.fdTable.length) = .ok ([] : List File).length := by
  refine ⟨rfl, ?_⟩
  intro hc
  rw [show (runtimeSetup (fun s => (.stdioFile s, .subset 0))
      (fun _ => .ok (.netFile 0, .subset 0)) (fun _ => .ok (.netFile 1, .subset 0))
      ([] : List File) [] []).map (fun c => c.fdTable.length) = .ok 3 from rfl] at hc
  simp at hc

/-- C4: on every successful setup, the guest environment is `FD_COUNT` (the
decimal slot count), then `FD_NAMES` (colon-joined slot names in slot order),
then every user env var in config order; the arguments are
`argv[0] = "main.wasm"` followed by each config arg in order; an empty files
list yields `FD_COUNT = "0"` and `FD_NAMES = ""`. -/
theorem runtimeSetup_env_args (stdioF : StdStream → WasiFileObj × FileCaps)
    (listenF : ListenFile → Except SetupErr (WasiFileObj × FileCaps))
    (connectF : ConnectFile → Except SetupErr (WasiFileObj × FileCaps))
    (files : List File) (env : List (String × String)) (args : List String)
    (ctx : WasiCtx)
    (h : runtimeSetup stdioF listenF connectF files env args = .ok ctx) :
    ctx.env = ("FD_COUNT", toString files.length) ::
              ("FD_NAMES", String.intercalate ":" (files.map File.name)) :: env
    ∧ ctx.args = "main.wasm" :: args
    ∧ (files = [] → ctx.env = ("FD_COUNT", "0") :: ("FD_NAMES", "") :: env) := by
  cases hprov : provisionFrom stdioF listenF connectF 0 files with
  | error e =>
    simp only [runtimeSetup, hprov] at h
    cases h
  | ok p =>
    obtain ⟨names, tbl⟩ := p
    obtain ⟨hn, -, -⟩ := provisionFrom_ok stdioF listenF connectF 0 files names tbl hprov
    subst hn
    simp only [runtimeSetup, hprov, Except.ok.injEq] at h
    subst h
    rw [foldl_push_arg, foldl_push_env]
    refine ⟨?_, ?_, ?_⟩
    · simp [WasiCtx.push_env, WasiCtx.push_arg]
    · simp [WasiCtx.push_env, WasiCtx.push_arg]
    · intro hfiles
      subst hfiles
      simp [WasiCtx.push_env, WasiCtx.push_arg]
      exact ⟨rfl, rfl⟩

/-- Witness for C4: a concrete config with one `Null` slot named "n0", one
user env var and one arg produces exactly the claimed env and argv. -/
theorem runtimeSetup_env_args_witness :
    WasiCtx.env { fdTable := [(0, WasiFileObj.nullFile, FileCaps.all)],
                  env := [("FD_COUNT", "1"), ("FD_NAMES", "n0"), ("K", "V")],
                  args := ["main.wasm", "a"] } =
      ("FD_COUNT", toString ([File.null "n0"] : List File).length) ::
        ("FD_NAMES", String.intercalate ":" (List.map File.name [File.null "n0"])) ::
        [("K", "V")] :=
  (runtimeSetup_env_args (fun s => (.stdioFile s, .subset 0))
    (fun _ => .ok (.netFile 0, .subset 0)) (fun _ => .ok (.netFile 1, .subset 0))
    [File.null "n0"] [("K", "V")] ["a"] _ rfl).1

/-- Kind of a host I/O error (`std::io::ErrorKind`), distinguishing only what
the code inspects. -/
inductive IoErrorKind
| unexpectedEof
| other (tag : Nat)
deriving DecidableEq

/-- Host I/O error (`std::io::Error`). -/
structure IoError where
  kind : IoErrorKind
deriving DecidableEq

/-- Embedding of the `wasi_common::Error` values this code produces: `badf` is
`Error::badf()`, `io` is `Error::io()`, `trap` is `Error::trap(msg)`,
`ofIoErr` the `From<std::io::Error>` conversion applied by `?`, `ofTlsErr`
the conversion of a rustls error, and `ctxMsg`/`ctxIoErr`/`ctxTlsErr` the
`.context(..)` layers carrying a message, an I/O error or a rustls error. -/
inductive Error
| badf
| io
| trap (msg : String)
| ofIoErr (e : IoError)
| ofTlsErr (msg : String)
| ctxMsg (msg : String) (cause : Error)
| ctxIoErr (e : IoError) (cause : Error)
| ctxTlsErr (msg : String) (cause : Error)
deriving DecidableEq

/-- Position argument of `seek` (`std::io::SeekFrom`). -/
inductive SeekFrom
| start (n : Nat)
| current (n : Int)
| fromEnd (n : Int)
deriving DecidableEq

namespace Stream

/-- Result of `self.any.seek` on the mirror handle (tls.rs lines 180-182):
wasmtime-wasi's socket type does not override the `WasiFile` trait default for
`seek`, which returns `Error::badf()` — sockets are not seekable.  Modelled
from that delegate's contract. -/
def mirrorSeek (_pos : SeekFrom) : Except Error Nat :=
  .error .badf

/-- Embedding of `Stream::seek` (tls.rs lines 180-182): delegates to the
mirror handle. -/
def seek (pos : SeekFrom) : Except Error Nat :=
  mirrorSeek pos

/-- Embedding of `Stream::read_vectored_at` (tls.rs lines 152-158). -/
def read_vectored_at (_bufs : List (List Nat)) (_offset : Nat) : Except Error Nat :=
  .error .badf

/-- Embedding of `Stream::write_vectored_at` (tls.rs lines 172-178). -/
def write_vectored_at (_bufs : List (List Nat)) (_offset : Nat) : Except Error Nat :=
  .error .badf

/-- Embedding of `Stream::peek` (tls.rs lines 184-186). -/
def peek (_buf : List Nat) : Except Error Nat :=
  .error .badf

/-- Abstract outcome record for one `Stream::read_vectored` invocation:
whether the TLS state wants a network read, the outcomes of `read_tls`,
`process_new_packets` and of the plaintext `reader().read_vectored(bufs)`. -/
structure TlsReadStep where
  wantsRead : Bool
  readTls : Except IoError Nat
  processPackets : Except String Unit
  plaintext : Except IoError Nat

/-- Embedding of the network-pull prefix of `Stream::read_vectored` (tls.rs
lines 138-141): `if tls.wants_read() { tls.read_tls(..)?;
tls.process_new_packets()?; }`, with `?` modelled as an early error return. -/
def tlsPull (st : TlsReadStep) : Except Error Unit :=
  if st.wantsRead then
    match st.readTls with
    | .error e => .error (.ofIoErr e)
    | .ok _ =>
      match st.processPackets with
      | .error em => .error (.ofTlsErr em)
      | .ok _ => .ok ()
  else
    .ok ()

/-- Embedding of `Stream::read_vectored` (tls.rs lines 135-150). -/
def read_vectored (st : TlsReadStep) : Except Error Nat :=
  match tlsPull st with
  | .error e => .error e
  | .ok _ =>
    match st.plaintext with
    | .error e =>
      if e.kind = .unexpectedEof then .ok 0
      else .error (.ofIoErr e)
    | .ok n => .ok n

end Stream

/-- C6: on a TLS `Stream`, `seek`, `read_vectored_at`, `write_vectored_at`
and `peek` fail with the bad-file-descriptor error for every argument. -/
theorem stream_unseekable_ops_badf (pos : SeekFrom) (bufs : List (List Nat))
    (offset : Nat) (buf : List Nat) :
    Stream.seek pos = .error .badf
    ∧ Stream.read_vectored_at bufs offset = .error .badf
    ∧ Stream.write_vectored_at bufs offset = .error .badf
    ∧ Stream.peek buf = .error .badf :=
  ⟨rfl, rfl, rfl, rfl⟩

/-- C7: when the network-pull phase succeeds, a plaintext-reader error of kind
unexpected-EOF makes `read_vectored` return `Ok 0` (a clean peer close is a
0-byte read, not an error); any other plaintext read error is returned as an
error, and a successful plaintext read of `n` bytes returns `Ok n`. -/
theorem stream_read_vectored_eof_spec (st : Stream.TlsReadStep)
    (hpre : Stream.tlsPull st = .ok ()) :
    (∀ e, st.plaintext = .error e → e.kind = .unexpectedEof →
        Stream.read_vectored st = .ok 0)
    ∧ (∀ e, st.plaintext = .error e → e.kind ≠ .unexpectedEof →
        Stream.read_vectored st = .error (.ofIoErr e))
    ∧ (∀ n, st.plaintext = .ok n → Stream.read_vectored st = .ok n) := by
  refine ⟨?_, ?_, ?_⟩
  · intro e he hk
    simp [Stream.read_vectored, hpre, he, hk]
  · intro e he hk
    simp only [Stream.read_vectored, hpre, he]
    rw [if_neg hk]
  · intro n hn
    simp [Stream.read_vectored, hpre, hn]

/-- Witness for C7: with no pending network read and a plaintext reader
reporting unexpected EOF, `read_vectored` returns `Ok 0`. -/
theorem stream_read_vectored_eof_spec_witness :
    Stream.read_vectored ⟨false, .ok 0, .ok (), .error ⟨.unexpectedEof⟩⟩ = .ok 0 :=
  (stream_read_vectored_eof_spec ⟨false, .ok 0, .ok (), .error ⟨.unexpectedEof⟩⟩
    rfl).1 ⟨.unexpectedEof⟩ rfl rfl

/-- Server TLS configuration shared by a Listener (`Arc<ServerConfig>`),
identified opaquely. -/
structure ServerCfg where
  id : Nat
deriving DecidableEq

/-- An accepted raw TCP connection, tracking its non-blocking flag. -/
structure TcpConn where
  id : Nat
  nonblocking : Bool
deriving DecidableEq

/-- Mode of the TLS state machine held by a Stream. -/
inductive TlsMode
| client
| server (cfg : ServerCfg)
deriving DecidableEq

/-- The TLS stream handed to the guest by a successful accept: its TCP
connection, TLS mode, whether `complete_io` finished the handshake, and the
fdflags applied via `set_fdflags`. -/
structure StreamSt where
  conn : TcpConn
  mode : TlsMode
  handshakeComplete : Bool
  fdflags : Nat
deriving DecidableEq

/-- Outcomes of the effectful steps inside `Listener::sock_accept`
(tls.rs lines 231-251): the raw `cap.accept()`, `ServerConnection::new`,
`set_nonblocking(true)`, the `complete_io` handshake, and the final
`set_fdflags` delegation. -/
structure AcceptEnv where
  acceptResult : Except IoError TcpConn
  tlsNew : Except String Unit
  setNonblocking : Except IoError Unit
  handshake : Except IoError Unit
  setFlags : Except Error Unit

namespace Listener

/-- Embedding of `Listener::sock_accept` (tls.rs lines 231-251): accept one
connection, build a server-side TLS state from the shared config, set the
socket non-blocking, drive the handshake to completion, apply the requested
fdflags, and only then hand the Stream back; each failure is converted
exactly as the source converts it. -/
def sock_accept (cfg : ServerCfg) (env : AcceptEnv) (fdflags : Nat) :
    Except Error StreamSt :=
  match env.acceptResult with
  | .error e => .error (.ofIoErr e)
  | .ok conn =>
    match env.tlsNew with
    | .error em =>
      .error (.ctxMsg "could not create new TLS connection" (.ctxTlsErr em .io))
    | .ok _ =>
      match env.setNonblocking with
      | .error e => .error (.ofIoErr e)
      | .ok _ =>
        match env.handshake with
        | .error e =>
          .error (.ctxMsg "could not perform TLS handshake" (.ctxIoErr e .io))
        | .ok _ =>
          match env.setFlags with
          | .error e => .error e
          | .ok _ =>
            .ok { conn := { conn with nonblocking := true }, mode := .server cfg,
                  handshakeComplete := true, fdflags := fdflags }

end Listener

/-- C8: `sock_accept` returns a Stream only after accepting one connection,
building the server-side TLS state from the shared config, setting the socket
non-blocking and completing the handshake; every failure surfaces as an error
with the cause preserved, and no Stream is returned in that case. -/
theorem listener_sock_accept_spec (cfg : ServerCfg) (env : AcceptEnv) (fdflags : Nat) :
    (∀ s, Listener.sock_accept cfg env fdflags = .ok s →
        s.handshakeComplete = true
        ∧ s.mode = .server cfg
        ∧ s.conn.nonblocking = true
        ∧ s.fdflags = fdflags
        ∧ env.handshake = .ok ()
        ∧ ∃ c, env.acceptResult = .ok c ∧ s.conn.id = c.id)
    ∧ (∀ e, env.acceptResult = .error e →
        Listener.sock_accept cfg env fdflags = .error (.ofIoErr e))
    ∧ (∀ c em, env.acceptResult = .ok c → env.tlsNew = .error em →
        Listener.sock_accept cfg env fdflags =
          .error (.ctxMsg "could not create new TLS connection" (.ctxTlsErr em .io)))
    ∧ (∀ c e, env.acceptResult = .ok c → env.tlsNew = .ok () →
        env.setNonblocking = .error e →
        Listener.sock_accept cfg env fdflags = .error (.ofIoErr e))
    ∧ (∀ c e, env.acceptResult = .ok c → env.tlsNew = .ok () →
        env.setNonblocking = .ok () → env.handshake = .error e →
        Listener.sock_accept cfg env fdflags =
          .error (.ctxMsg "could not perform TLS handshake" (.ctxIoErr e .io)))
    ∧ (∀ c e, env.acceptResult = .ok c → env.tlsNew = .ok () →
        env.setNonblocking = .ok () → env.handshake = .ok () →
        env.setFlags = .error e →
        Listener.sock_accept cfg env fdflags = .error e) := by
  refine ⟨?_, ?_, ?_, ?_, ?_, ?_⟩
  · intro s hs
    cases hacc : env.acceptResult with
    | error e => simp [Listener.sock_accept, hacc] at hs
    | ok c =>
      cases htls : env.tlsNew with
      | error em => simp [Listener.sock_accept, hacc, htls] at hs
      | ok u =>
        cases hnb : env.setNonblocking with
        | error e => simp [Listener.sock_accept, hacc, htls, hnb] at hs
        | ok u2 =>
          cases hhs : env.handshake with
          | error e => simp [Listener.sock_accept, hacc, htls, hnb, hhs] at hs
          | ok u3 =>
            cases hfl : env.setFlags with
            | error e => simp [Listener.sock_accept, hacc, htls, hnb, hhs, hfl] at hs
            | ok u4 =>
              cases u3
              simp only [Listener.sock_accept, hacc, htls, hnb, hhs, hfl,
                Except.ok.injEq] at hs
              subst hs
              exact ⟨rfl, rfl, rfl, rfl, rfl, c, rfl, rfl⟩
  · intro e hacc
    simp only [Listener.sock_accept, hacc]
  · intro c em hacc htls
    simp only [Listener.sock_accept, hacc, htls]
  · intro c e hacc htls hnb
    simp only [Listener.sock_accept, hacc, htls, hnb]
  · intro c e hacc htls hnb hhs
    simp only [Listener.sock_accept, hacc, htls, hnb, hhs]
  · intro c e hacc htls hnb hhs hfl
    simp only [Listener.sock_accept, hacc, htls, hnb, hhs, hfl]

/-- Witness for C8: a failed raw accept surfaces the I/O cause, and a fully
successful accept hands back a handshaken, non-blocking server Stream. -/
theorem listener_sock_accept_spec_witness :
    Listener.sock_accept ⟨0⟩ ⟨.error ⟨.other 7⟩, .ok (), .ok (), .ok (), .ok ()⟩ 3 =
      .error (.ofIoErr ⟨.other 7⟩)
    ∧ ({ conn := { id := 5, nonblocking := true }, mode := .server ⟨0⟩,
         handshakeComplete := true, fdflags := 3 } : StreamSt).handshakeComplete = true :=
  ⟨(listener_sock_accept_spec ⟨0⟩ ⟨.error ⟨.other 7⟩, .ok (), .ok (), .ok (), .ok ()⟩
      3).2.1 ⟨.other 7⟩ rfl,
   ((listener_sock_accept_spec ⟨0⟩ ⟨.ok ⟨5, false⟩, .ok (), .ok (), .ok (), .ok ()⟩
      3).1 { conn := { id := 5, nonblocking := true }, mode := .server ⟨0⟩,
             handshakeComplete := true, fdflags := 3 } rfl).1⟩

namespace WasiUnstable

/-- Embedding of the `proc_raise` override of the preview-0 syscall shim
(preview_0.rs lines 346-348). -/
def proc_raise (_sig : Nat) : Except Error Unit :=
  .error (.trap "proc_raise unsupported")

/-- Embedding of the `sock_recv` override (preview_0.rs lines 362-369). -/
def sock_recv (_fd : Nat) (_riData : List (List Nat)) (_riFlags : Nat) :
    Except Error (Nat × Nat) :=
  .error (.trap "sock_recv unsupported")

/-- Embedding of the `sock_send` override (preview_0.rs lines 371-378). -/
def sock_send (_fd : Nat) (_siData : List (List Nat)) (_siFlags : Nat) :
    Except Error Nat :=
  .error (.trap "sock_send unsupported")

/-- Embedding of the `sock_shutdown` override (preview_0.rs lines 380-382). -/
def sock_shutdown (_fd : Nat) (_how : Nat) : Except Error Unit :=
  .error (.trap "sock_shutdown unsupported")

end WasiUnstable

/-- An error raised via `Error::trap(..)` — it terminates the guest instead of
being mapped back to the guest as an `Errno`. -/
def Error.isTrap : Error → Bool
  | .trap _ => true
  | _ => false

/-- C9: `proc_raise`, `sock_recv`, `sock_send` and `sock_shutdown` always fail
with a trap whose message is "<name> unsupported", for every file descriptor
and argument; the returned error is a trap (never an `Errno`, never
success). -/
theorem wasi_unstable_unsupported_trap (sig fd riFlags siFlags how : Nat)
    (riData siData : List (List Nat)) :
    WasiUnstable.proc_raise sig = .error (.trap "proc_raise unsupported")
    ∧ WasiUnstable.sock_recv fd riData riFlags =
        .error (.trap "sock_recv unsupported")
    ∧ WasiUnstable.sock_send fd siData siFlags =
        .error (.trap "sock_send unsupported")
    ∧ WasiUnstable.sock_shutdown fd how = .error (.trap "sock_shutdown unsupported")
    ∧ (Error.trap "proc_raise unsupported").isTrap = true
    ∧ (Error.trap "sock_recv unsupported").isTrap = true
    ∧ (Error.trap "sock_send unsupported").isTrap = true
    ∧ (Error.trap "sock_shutdown unsupported").isTrap = true :=
  ⟨rfl, rfl, rfl, rfl, rfl, rfl, rfl, rfl⟩
